import Mathlib

/-
Verification development for the NAA request-dispatch library.

Shallow embedding of the core of `NAA/models.py` (Node, APIRequest,
APIResponse) and `NAA/web.py` (API: version resolution, the WSGI
application, registration, run_api).  Python dicts are modelled as
insertion-ordered association lists with the exact `__setitem__` /
`update` / `pop` semantics; Python `str.title`, `str.upper`,
`str.split("/")` and slicing are modelled character-wise; exceptions
(assertion failures, unpacking errors, KeyError on missing dict keys)
are modelled by `Option` / `Except` results.
-/

set_option autoImplicit false

namespace NAA

/-- JSON-ish values appearing in response bodies and handler returns. -/
inductive Val where
  | str (s : String) : Val
  | int (i : Int) : Val
deriving DecidableEq

/-- A Python `dict` with `String` keys: an insertion-ordered association
list whose keys are unique when built through `Dict.insert`. -/
abbrev Dict (α : Type) : Type := List (String × α)

/-- First-match lookup, `d.get(k)` / `d[k]`. -/
def Dict.get? {α : Type} (d : Dict α) (k : String) : Option α :=
  match d with
  | [] => none
  | (k2, v) :: rest => if k2 == k then some v else Dict.get? rest k

/-- Lookup with default, `d.get(k, dflt)`. -/
def Dict.getD {α : Type} (d : Dict α) (k : String) (dflt : α) : α :=
  (Dict.get? d k).getD dflt

/-- Python `k in d`. -/
def Dict.hasKey {α : Type} (d : Dict α) (k : String) : Bool :=
  (Dict.get? d k).isSome

/-- Python `d[k] = v`: replace the value at the first occurrence of `k`
(keeping its position), else append. -/
def Dict.insert {α : Type} (d : Dict α) (k : String) (v : α) : Dict α :=
  match d with
  | [] => [(k, v)]
  | (k2, v2) :: rest =>
    if k2 == k then (k2, v) :: rest else (k2, v2) :: Dict.insert rest k v

/-- Python `d.update(e)`: `d[k] = v` for each pair of `e` in order. -/
def Dict.update {α : Type} (d : Dict α) (e : Dict α) : Dict α :=
  e.foldl (fun acc kv => Dict.insert acc kv.1 kv.2) d

/-- The key list, in insertion order (Python `for k in d`). -/
def Dict.keys {α : Type} (d : Dict α) : List String :=
  d.map (fun kv => kv.1)

/-- Removal of the (first) entry with key `k`, as done by `d.pop(k, ...)`
on a Python dict (whose keys are unique). -/
def Dict.eraseFirst {α : Type} (d : Dict α) (k : String) : Dict α :=
  match d with
  | [] => []
  | (k2, v2) :: rest =>
    if k2 == k then rest else (k2, v2) :: Dict.eraseFirst rest k

/-- One character of Python `str.title()`: alphabetic characters are
uppercased after a non-alphabetic character and lowercased otherwise. -/
def titleChar (prevAlpha : Bool) (c : Char) : Char :=
  if c.isAlpha then (if prevAlpha then c.toLower else c.toUpper) else c

/-- Character-list worker for `str.title()`. -/
def titleAux : Bool → List Char → List Char
  | _, [] => []
  | prevAlpha, c :: cs => titleChar prevAlpha c :: titleAux c.isAlpha cs

/-- Python `str.title()` (the ASCII fragment used by this library). -/
def strTitle (s : String) : String :=
  String.mk (titleAux false s.data)

/-- Python `str.upper()` (ASCII). -/
def strUpper (s : String) : String :=
  String.mk (s.data.map Char.toUpper)

/-- Python slicing `s[n:]` (ASCII). -/
def strDrop (s : String) (n : Nat) : String :=
  String.mk (s.data.drop n)

/-- Character-list worker for Python `str.split("/")`. -/
def splitSlashAux : List Char → List Char → List String
  | [], acc => [String.mk acc.reverse]
  | c :: cs, acc =>
    if c = '/' then String.mk acc.reverse :: splitSlashAux cs []
    else splitSlashAux cs (c :: acc)

/-- Python `s.split("/")`: always non-empty, keeps empty segments. -/
def splitSlash (s : String) : List String :=
  splitSlashAux s.data []

/-- `HTTP_METHODS` from `NAA/web.py`. -/
def HTTP_METHODS : List String :=
  ["GET", "HEAD", "POST", "PUT", "DELETE", "CONNECT", "OPTIONS", "TRACE", "PATCH"]

/-- The `APIResponse.DEFAULT_MESSAGES` table from `NAA/models.py`,
as the underlying key-value pairs (note: it contains 452, not 451). -/
def DEFAULT_MESSAGES_TABLE : List (Int × String) :=
  [(100, "Continue"), (101, "Switching Protocols"), (102, "Processing"),
   (103, "Early Hints"),
   (200, "OK"), (201, "Created"), (202, "Accepted"),
   (203, "Non-Authoritative Information"), (204, "No Content"),
   (205, "Reset Content"), (206, "Partial Content"), (207, "Multi-Status"),
   (208, "Already Reported"), (226, "IM Used"),
   (300, "Multiple Choices"), (301, "Moved Permanently"), (302, "Found"),
   (303, "See Other"), (304, "Not Modified"), (305, "Use Proxy"),
   (306, "Switch Proxy"), (307, "Temporary Redirect"),
   (308, "Permanent Redirect"),
   (400, "Bad Request"), (401, "Unauthorized"), (402, "Payment Required"),
   (403, "Forbidden"), (404, "Not Found"), (405, "Method Not Allowed"),
   (406, "Not Acceptable"), (407, "Proxy Authentication Required"),
   (408, "Request Timeout"), (409, "Conflict"), (410, "Gone"),
   (411, "Length Required"), (412, "Precondition Failed"),
   (413, "Payload Too Large"), (414, "URI Too Long"),
   (415, "Unsupported Media Type"), (416, "Range Not Satisfiable"),
   (417, "Expectation Failed"), (418, "I\x27m a teapot"),
   (421, "Misdirected Request"), (422, "Unprocessable Entity"),
   (423, "Locked"), (424, "Failed Dependency"), (425, "Too Early"),
   (426, "Upgrade Required"), (428, "Precondition Required"),
   (429, "Too Many Requests"), (431, "Request Header Fields Too Large"),
   (452, "Unavailable For Legal Reasons"),
   (500, "Internal Server Error"), (501, "Not Implemented"),
   (502, "Bad Gateway"), (503, "Service Unavailable"),
   (504, "Gateway Timeout"), (505, "HTTP Version Not Supported"),
   (506, "Variant Also Negotiates"), (507, "Insufficient Storage"),
   (508, "Loop Detected"), (510, "Not Extended"),
   (511, "Network Authentication Required")]

/-- `DEFAULT_MESSAGES` lookup: the table is a `dict` subclass whose
`__getitem__` returns `""` for a missing status code. -/
def DEFAULT_MESSAGES (status : Int) : String :=
  ((DEFAULT_MESSAGES_TABLE.find? (fun kv => kv.1 == status)).map (fun kv => kv.2)).getD ""

/-- The `APIRequest` value type from `NAA/models.py`. -/
structure APIRequest where
  method : String
  headers : Dict String
  ip : String
  url : String
  version : String

/-- The `APIResponse` value after `__init__` has normalized its inputs. -/
structure APIResponse where
  status_code : Int
  response : Dict Val
  message : String
deriving DecidableEq

/-- The runtime type of the first positional argument of
`APIResponse.__init__` (`status_code`): an int or a dict. -/
inductive StatusArg where
  | sint (i : Int) : StatusArg
  | sdict (d : Dict Val) : StatusArg

/-- The runtime type of the second positional argument of
`APIResponse.__init__` (`response`): omitted, a dict, or a string. -/
inductive RespArg where
  | rnone : RespArg
  | rdict (d : Dict Val) : RespArg
  | rstr (s : String) : RespArg

/-- `if isinstance(response, str): message, response = response, \x7b\x7d`
from `APIResponse.__init__` (the message/response swap). -/
def normMsgResp (resp : RespArg) (msg : Option String) : Option String × RespArg :=
  match resp with
  | RespArg.rstr s => (some s, RespArg.rdict [])
  | r => (msg, r)

/-- `if isinstance(status_code, dict): response, status_code = status_code, 200`
from `APIResponse.__init__`. -/
def normStatus (status : StatusArg) (resp : RespArg) : RespArg × Int :=
  match status with
  | StatusArg.sdict d => (RespArg.rdict d, 200)
  | StatusArg.sint i => (resp, i)

/-- `if response is None: response = \x7b\x7d` plus the dict view of the
normalized `response` argument. -/
def respData : RespArg → Dict Val
  | RespArg.rnone => []
  | RespArg.rdict d => d
  | RespArg.rstr _ => []

/-- Tail of `APIResponse.__init__`:
`message = response.pop("message", message)`, defaulting from
`DEFAULT_MESSAGES`, asserting the message is a string, and storing
`message.title()`.  `none` models the failed assertion (a popped
non-string message). -/
def finishResponse (statusCode : Int) (respD : Dict Val) (msg : Option String) :
    Option APIResponse :=
  match Dict.get? respD "message" with
  | some (Val.str s) =>
    some ⟨statusCode, Dict.eraseFirst respD "message", strTitle s⟩
  | some _ => none
  | none =>
    match msg with
    | some m => some ⟨statusCode, respD, strTitle m⟩
    | none => some ⟨statusCode, respD, strTitle (DEFAULT_MESSAGES statusCode)⟩

/-- `APIResponse.__init__(status_code, response=None, message=None)`. -/
def mkAPIResponse (status : StatusArg) (resp : RespArg) (msg : Option String) :
    Option APIResponse :=
  finishResponse
    (normStatus status (normMsgResp resp msg).2).2
    (respData (normStatus status (normMsgResp resp msg).2).1)
    (normMsgResp resp msg).1

/-- The value a handler returns, before normalization in `Node.run`:
a bare status int, a bare dict, a `(status, body)` tuple or a
`(status, message)` tuple. -/
inductive HandlerResult where
  | int (i : Int) : HandlerResult
  | dict (d : Dict Val) : HandlerResult
  | tupDict (i : Int) (d : Dict Val) : HandlerResult
  | tupMsg (i : Int) (s : String) : HandlerResult

/-- The raw return of a handler callable: either a plain result or,
under the AlbertUnruhUtils rate-limit integration, a
`((allowed, metadata), result)` pair. -/
inductive RawResult where
  | plain (h : HandlerResult) : RawResult
  | auu (decision : Bool × Dict Val) (h : HandlerResult) : RawResult

/-- `isinstance(result, tuple)` dispatch at the end of `Node.run`:
tuples are splatted into `APIResponse(*result)`, anything else is
passed as the first argument. -/
def normalizeHandler : HandlerResult → Option APIResponse
  | HandlerResult.int i => mkAPIResponse (StatusArg.sint i) RespArg.rnone none
  | HandlerResult.dict d => mkAPIResponse (StatusArg.sdict d) RespArg.rnone none
  | HandlerResult.tupDict i d => mkAPIResponse (StatusArg.sint i) (RespArg.rdict d) none
  | HandlerResult.tupMsg i s => mkAPIResponse (StatusArg.sint i) (RespArg.rstr s) none

/-- A trie `Node` from `NAA/models.py`: filtered accepted methods, the
`_must_warn` flag, the ordered `(check, default_return_value)` request
checks, the ordered response checks (modelled as envelope transformers),
the bound handler `_clb`, the child mapping, and whether
`"AlbertUnruhUtils"` is in `_used_libs`. -/
inductive Node where
  | mk (methods : List String)
       (mustWarn : Bool)
       (checksRequest : List ((APIRequest → Bool) × Int))
       (checksResponse : List (APIResponse → APIResponse))
       (clb : APIRequest → RawResult)
       (children : List (String × Node))
       (usedAUU : Bool) : Node

/-- Accessor for `Node._methods`. -/
def Node.methods : Node → List String
  | Node.mk m _ _ _ _ _ _ => m

/-- Accessor for `Node._must_warn`. -/
def Node.mustWarn : Node → Bool
  | Node.mk _ w _ _ _ _ _ => w

/-- Accessor for `Node._checks_request`. -/
def Node.checksRequest : Node → List ((APIRequest → Bool) × Int)
  | Node.mk _ _ cq _ _ _ _ => cq

/-- Accessor for `Node._checks_response`. -/
def Node.checksResponse : Node → List (APIResponse → APIResponse)
  | Node.mk _ _ _ cr _ _ _ => cr

/-- Accessor for `Node._clb`. -/
def Node.clb : Node → (APIRequest → RawResult)
  | Node.mk _ _ _ _ f _ _ => f

/-- Accessor for `Node._children`. -/
def Node.children : Node → Dict Node
  | Node.mk _ _ _ _ _ c _ => c

/-- Accessor for the AlbertUnruhUtils flag derived from `_used_libs`. -/
def Node.usedAUU : Node → Bool
  | Node.mk _ _ _ _ _ _ u => u

/-- Replace a node\x27s children (in-place mutation of `_children`). -/
def Node.withChildren : Node → Dict Node → Node
  | Node.mk m w cq cr f _ u, c => Node.mk m w cq cr f c u

/-- The request-check loop of `Node.run`: the first check returning
false yields its `default_return_value`. -/
def runChecks (checks : List ((APIRequest → Bool) × Int)) (req : APIRequest) :
    Option Int :=
  match checks with
  | [] => none
  | (c, fb) :: rest => if c req then runChecks rest req else some fb

/-- The `auu, result = result` unpacking in `Node.run` (active only when
`"AlbertUnruhUtils" in self._used_libs`); without the integration the
metadata stays `(None, \x7b\x7d)`.  A shape mismatch is a Python
unpacking/type error, modelled as `none`. -/
def unpackResult (usedAUU : Bool) (raw : RawResult) : Option (Dict Val × HandlerResult) :=
  match usedAUU, raw with
  | false, RawResult.plain h => some ([], h)
  | true, RawResult.auu dec h =>
    some (dec.2, if dec.1 then h else HandlerResult.int 429)
  | _, _ => none

/-- The response-check loop at the end of `Node.run`, in registration
order. -/
def applyResponseChecks (checks : List (APIResponse → APIResponse)) (r : APIResponse) :
    APIResponse :=
  checks.foldl (fun acc c => c acc) r

/-- `Node.run(request)`: 405 on a method miss, first failing request
check short-circuits to its fallback status, then the handler result is
unpacked, normalized, merged with the rate-limit metadata
(`result._response.update(auu[1])`) and run through the response
checks. -/
def Node.run (n : Node) (req : APIRequest) : Option APIResponse :=
  if n.methods.contains req.method = false then
    mkAPIResponse (StatusArg.sint 405) RespArg.rnone none
  else
    match runChecks n.checksRequest req with
    | some fb => mkAPIResponse (StatusArg.sint fb) RespArg.rnone none
    | none =>
      match unpackResult n.usedAUU (n.clb req) with
      | none => none
      | some (meta, result) =>
        match normalizeHandler result with
        | none => none
        | some r =>
          some (applyResponseChecks n.checksResponse
            { r with response := Dict.update r.response meta })

/-- `Node.find_node(path, request)`: if the first segment names a child,
run it (last segment) or recurse; otherwise `APIResponse(404)`.  An
empty segment list would be a Python `IndexError` (`path[0]`), modelled
as `none`. -/
def Node.find_node (n : Node) (path : List String) (req : APIRequest) :
    Option APIResponse :=
  match path with
  | [] => none
  | seg :: rest =>
    match Dict.get? n.children seg with
    | none => mkAPIResponse (StatusArg.sint 404) RespArg.rnone none
    | some child =>
      match rest with
      | [] => child.run req
      | _ => child.find_node rest req

/-- The node a fully matched path resolves to: the walk of
`Node.find_node` that ends in `run`. -/
def findPath (n : Node) (path : List String) : Option Node :=
  match path with
  | [] => none
  | seg :: rest =>
    match Dict.get? n.children seg with
    | none => none
    | some child =>
      match rest with
      | [] => some child
      | _ => findPath child rest

/-- The path condition under which `Node.find_node` hits a missing
child: the first unmatched segment is not a child of the current
node. -/
def walkMisses (n : Node) (path : List String) : Bool :=
  match path with
  | [] => false
  | seg :: rest =>
    match Dict.get? n.children seg with
    | none => true
    | some child =>
      match rest with
      | [] => false
      | _ => walkMisses child rest

/-- The version-matching loop of `API._application`: the first
registered version tag equal to the first path segment is selected and
stripped (`path[len(v) + 1:]`); otherwise the default tag is kept and
the path is unchanged. -/
def resolveLoop (tags : List String) (dflt path first : String) : String × String :=
  match tags with
  | [] => (dflt, path)
  | v :: rest =>
    if v == first then (v, strDrop path (v.length + 1))
    else resolveLoop rest dflt path first

/-- Version resolution of `API._application` on the path after the
leading slash was removed: split on `"/"`, compare the first segment
against the registered tags in insertion order. -/
def resolveVersion (versions : Dict Node) (dflt path : String) : String × String :=
  match splitSlash path with
  | [] => (dflt, path)
  | first :: _ => resolveLoop (Dict.keys versions) dflt path first

/-- The return of the configured default endpoint (used verbatim, not
re-normalized): an `APIResponse`, or under the rate-limit integration a
`((allowed, metadata), APIResponse)` pair. -/
inductive DefaultResult where
  | plain (r : APIResponse) : DefaultResult
  | auu (decision : Bool × Dict Val) (r : APIResponse) : DefaultResult

/-- The serving-time state of an `API` object, as `_application` reads
it. -/
structure APIModel where
  versions : Dict Node
  checksRequestGlobal : Dict (List ((APIRequest → Bool) × Int))
  checksResponseGlobal : Dict (List (APIResponse → APIResponse))
  versionDefault : String
  defaultEndpoint : APIRequest → DefaultResult
  usedAUU : Bool

/-- The transport-boundary response built by `_application`:
`Response(status=..., response=dumps(body), content_type=...)`, with the
body kept as a dict (serialization is outside the core). -/
structure WebResponse where
  status : Int
  body : Dict Val
  contentType : String
deriving DecidableEq

/-- The `APIRequest` constructed by `_application` for an inbound
request: the version is resolved from the path after the leading slash
(`request.path[1:]`) and the remainder becomes `url`. -/
def mkRequest (api : APIModel) (method : String) (headers : Dict String)
    (ip reqPath : String) : APIRequest :=
  ⟨method, headers, ip,
   (resolveVersion api.versions api.versionDefault (strDrop reqPath 1)).2,
   (resolveVersion api.versions api.versionDefault (strDrop reqPath 1)).1⟩

/-- The default-endpoint branch of `_application` (`if not path`),
including the rate-limit unpacking (`result = APIResponse(429)` when not
allowed, metadata merged into the body in both cases).  Shape
mismatches with the integration flag are Python errors, modelled as
`none`. -/
def defaultBranch (usedAUU : Bool) (res : DefaultResult) : Option APIResponse :=
  match usedAUU, res with
  | false, DefaultResult.plain r => some r
  | true, DefaultResult.auu dec r =>
    let r2 := if dec.1 then r
      else ⟨429, [], strTitle (DEFAULT_MESSAGES 429)⟩
    some { r2 with response := Dict.update r2.response dec.2 }
  | _, _ => none

/-- `API._application(request)`: resolve the version, build the request,
run the global request checks (first failure responds with its fallback
status and `\x7b"message": DEFAULT_MESSAGES[status]\x7d`), route to the
default endpoint or the version root\x27s `find_node`, run the global
response checks, then serialize with the message merged into the body.
`none` models the uncaught Python errors (`.get(version)` returning
`None`, a missing version key, an empty path list). -/
def application (api : APIModel) (method : String) (headers : Dict String)
    (ip reqPath : String) : Option WebResponse :=
  let vp := resolveVersion api.versions api.versionDefault (strDrop reqPath 1)
  let request := mkRequest api method headers ip reqPath
  match Dict.get? api.checksRequestGlobal vp.1 with
  | none => none
  | some checks =>
    match runChecks checks request with
    | some fb =>
      some ⟨fb, [("message", Val.str (DEFAULT_MESSAGES fb))], "application/json"⟩
    | none =>
      let resultO : Option APIResponse :=
        if vp.2 == "" then defaultBranch api.usedAUU (api.defaultEndpoint request)
        else
          match Dict.get? api.versions vp.1 with
          | none => none
          | some root => root.find_node (splitSlash vp.2) request
      match resultO with
      | none => none
      | some result =>
        match Dict.get? api.checksResponseGlobal vp.1 with
        | none => none
        | some rchecks =>
          let final := applyResponseChecks rchecks result
          some ⟨final.status_code,
                Dict.insert final.response "message" (Val.str final.message),
                "application/json"⟩

/-- `API.run_api`: the startup check
`if self._versions and (default := self._version_default) is not None:
raise RuntimeError if default not in self._versions`; `Except.ok ()`
means control reaches `run_simple` (serving starts). -/
def run_api (versions : Dict Node) (versionDefault : Option String) :
    Except String Unit :=
  if versions.isEmpty then Except.ok ()
  else
    match versionDefault with
    | none => Except.ok ()
    | some d =>
      if Dict.hasKey versions d then Except.ok ()
      else Except.error
        ("Can\x27t have \x27" ++ d ++
         "\x27 as default version, because this version is not set!")

/-- The method filter of `Node.__init__`:
`[m.upper() for m in methods if m.upper() in HTTP_METHODS]`. -/
def nodeMethods (methods : List String) : List String :=
  (methods.filter (fun m => HTTP_METHODS.contains (strUpper m))).map strUpper

/-- `Node(*methods, ignore_invalid_methods=..., used_libs=...)` followed
by `node(clb)`: a fresh bound node with no checks and no children. -/
def newNode (methods : List String) (ignoreInvalid : Bool) (usedAUU : Bool)
    (clb : APIRequest → RawResult) : Node :=
  Node.mk (nodeMethods methods)
    ((nodeMethods methods).isEmpty && !ignoreInvalid)
    [] [] clb [] usedAUU

/-- One registration call performed by the body of a version-registration
callback `clb(self)`: `API.add`, `API.add_global_request_check` or
`API.add_global_response_check`. -/
inductive RegAction where
  | addChild (name : String) (methods : List String) (ignoreInvalid : Bool)
      (clb : APIRequest → RawResult) : RegAction
  | addGlobalRequestCheck (fallbackStatus : Int) (check : APIRequest → Bool) : RegAction
  | addGlobalResponseCheck (check : APIResponse → APIResponse) : RegAction

/-- A version-registration callback: the Python function value that
`add_version`\x27s decorator receives.  It is bound as the root node\x27s
`_clb` (`fn`) and its body performs the registration calls `actions`
when invoked as `clb(self)`. -/
structure Callback where
  name : String
  fn : APIRequest → RawResult
  actions : List RegAction

/-- The registration-time state of an `API` object. -/
structure RegState where
  versions : Dict Node
  checksRequestGlobal : Dict (List ((APIRequest → Bool) × Int))
  checksResponseGlobal : Dict (List (APIResponse → APIResponse))
  currentVersion : Option String
  usedAUU : Bool

/-- Execute one registration call against the version `tag` currently
being configured (`_get_version()` returns `tag` inside the decorator).
A missing version entry would be a Python `KeyError`; it is unreachable
from `add_version`, which inserts the entry first. -/
def RegState.execAction (tag : String) (st : RegState) (a : RegAction) : RegState :=
  match a with
  | RegAction.addChild nm ms ign clb =>
    match Dict.get? st.versions tag with
    | some root =>
      { st with versions :=
          (Dict.insert st.versions tag
            (root.withChildren
              (Dict.insert root.children nm (newNode ms ign st.usedAUU clb)))) }
    | none => st
  | RegAction.addGlobalRequestCheck fb c =>
    { st with checksRequestGlobal :=
        (Dict.insert st.checksRequestGlobal tag
          ((Dict.getD st.checksRequestGlobal tag []) ++ [(c, fb)])) }
  | RegAction.addGlobalResponseCheck c =>
    { st with checksResponseGlobal :=
        (Dict.insert st.checksResponseGlobal tag
          ((Dict.getD st.checksResponseGlobal tag []) ++ [c])) }

/-- Execute a callback body: its registration calls in order. -/
def RegState.execActions (tag : String) (st : RegState) (acts : List RegAction) : RegState :=
  acts.foldl (RegState.execAction tag) st

/-- The decorator body of `API.add_version` applied to one callback:
ensure the global check lists exist, build the new root from the
callback with the existing children merged in
(`node._children.update(version_node._children)` on a fresh node), store
it, run the callback body, clear the cursor. -/
def addVersionOne (st : RegState) (tag : String) (cb : Callback) : RegState :=
  let st1 : RegState :=
    { st with
      currentVersion := some tag
      checksRequestGlobal :=
        Dict.insert st.checksRequestGlobal tag (Dict.getD st.checksRequestGlobal tag [])
      checksResponseGlobal :=
        Dict.insert st.checksResponseGlobal tag (Dict.getD st.checksResponseGlobal tag []) }
  let oldChildren : Dict Node :=
    match Dict.get? st1.versions tag with
    | some n => n.children
    | none => []
  let root : Node :=
    (newNode HTTP_METHODS false st1.usedAUU cb.fn).withChildren
      (Dict.update [] oldChildren)
  let st2 : RegState := { st1 with versions := Dict.insert st1.versions tag root }
  let st3 : RegState := RegState.execActions tag st2 cb.actions
  { st3 with currentVersion := none }

/-- `API.add_version(version, fallback=[...])` applied to a callback:
each fallback is first registered through a recursive
`add_version(version)(fb)`, then the primary callback is registered.
`tag` is the already-formatted version tag. -/
def addVersion (st : RegState) (tag : String) (fallback : List Callback)
    (cb : Callback) : RegState :=
  addVersionOne (fallback.foldl (fun s fb => addVersionOne s tag fb) st) tag cb

/-- The `(name, child node)` pairs a callback body adds via `API.add`,
in order. -/
def childKVsActs (acts : List RegAction) (usedAUU : Bool) : Dict Node :=
  acts.filterMap (fun a =>
    match a with
    | RegAction.addChild nm ms ign clb => some (nm, newNode ms ign usedAUU clb)
    | _ => none)

/-- The `(name, child node)` pairs of a callback. -/
def childKVs (cb : Callback) (usedAUU : Bool) : Dict Node :=
  childKVsActs cb.actions usedAUU

/-- The child names a callback registers, in order. -/
def childNames (cb : Callback) : List String :=
  cb.actions.filterMap (fun a =>
    match a with
    | RegAction.addChild nm _ _ _ => some nm
    | _ => none)

/-- The children of the existing version entry, if any (`_children` of
`versions.get(tag, Node(*HTTP_METHODS, ...))`). -/
def oldChildrenOf (versions : Dict Node) (tag : String) : Dict Node :=
  match Dict.get? versions tag with
  | some n => n.children
  | none => []

/-- A trivial handler used in concrete instances. -/
def trivHandler : APIRequest → RawResult :=
  fun _ => RawResult.plain (HandlerResult.int 200)

/-- A minimal bound node used in concrete instances. -/
def trivNode : Node := Node.mk ["GET"] false [] [] trivHandler [] false

/-- A concrete GET request. -/
def wReq : APIRequest := ⟨"GET", [], "127.0.0.1", "users", "v1"⟩

/-- A concrete POST request. -/
def wReqPost : APIRequest := ⟨"POST", [], "127.0.0.1", "users", "v1"⟩

/-- A leaf node bound to a handler returning the tuple
`(201, dict with x = 1)`. -/
def wLeaf : Node :=
  Node.mk ["GET"] false [] []
    (fun _ => RawResult.plain (HandlerResult.tupDict 201 [("x", Val.int 1)])) [] false

/-- A root node with the single child `users`. -/
def wRoot : Node :=
  Node.mk HTTP_METHODS false [] [] trivHandler [("users", wLeaf)] false

/-- A node with a passing request check followed by a failing one. -/
def wCheckNode : Node :=
  Node.mk ["GET"] false [(fun _ => true, 400), (fun _ => false, 403)] []
    trivHandler [] false

/-- A rate-limited node whose handler reports the request as not
allowed. -/
def wAUUDeny : Node :=
  Node.mk ["GET"] false [] []
    (fun _ => RawResult.auu (false, [("limit", Val.int 10)]) (HandlerResult.int 200))
    [] true

/-- A rate-limited node whose handler reports the request as allowed. -/
def wAUUAllow : Node :=
  Node.mk ["GET"] false [] []
    (fun _ => RawResult.auu (true, [("limit", Val.int 10)])
      (HandlerResult.tupMsg 201 "Created!"))
    [] true

/-- A node whose handler returns a bare dict. -/
def wDictNode : Node :=
  Node.mk ["GET"] false [] []
    (fun _ => RawResult.plain (HandlerResult.dict [("a", Val.int 1)])) [] false

/-- A concrete API with one version and one failing global request
check. -/
def wAPI : APIModel :=
  { versions := [("v1", wRoot)]
    checksRequestGlobal := [("v1", [(fun _ => false, 401)])]
    checksResponseGlobal := [("v1", [])]
    versionDefault := "v1"
    defaultEndpoint := fun _ => DefaultResult.plain ⟨404, [], "No Path!"⟩
    usedAUU := false }

/-- A registration callback adding children `a` and `b`. -/
def wCb : Callback :=
  ⟨"main", trivHandler,
   [RegAction.addChild "a" ["GET"] false trivHandler,
    RegAction.addChild "b" ["POST"] false trivHandler]⟩

/-- An existing version root with the single child `a`. -/
def wOldRoot : Node :=
  Node.mk HTTP_METHODS false [] [] trivHandler [("a", trivNode)] false

/-- A registration state with version `v1` already present. -/
def wSt : RegState := ⟨[("v1", wOldRoot)], [], [], none, false⟩

/-- The key list of a cons. -/
theorem Dict.keys_cons {α : Type} (kv : String × α) (rest : Dict α) :
    Dict.keys (kv :: rest) = kv.1 :: Dict.keys rest := rfl

/-- The key list of an append. -/
theorem Dict.keys_append {α : Type} (d e : Dict α) :
    Dict.keys (d ++ e) = Dict.keys d ++ Dict.keys e := by
  simp [Dict.keys]

/-- Looking up the key just stored finds the stored value. -/
theorem Dict.get?_insert_self {α : Type} (d : Dict α) (k : String) (v : α) :
    Dict.get? (Dict.insert d k v) k = some v := by
  induction d with
  | nil => simp [Dict.insert, Dict.get?]
  | cons kv rest ih =>
    obtain ⟨k2, v2⟩ := kv
    by_cases h : k2 = k
    · simp [Dict.insert, Dict.get?, h]
    · simp [Dict.insert, Dict.get?, h, ih]

/-- Looking up a different key is unaffected by a store. -/
theorem Dict.get?_insert_ne {α : Type} (d : Dict α) (k k2 : String) (v : α)
    (hne : k2 ≠ k) : Dict.get? (Dict.insert d k v) k2 = Dict.get? d k2 := by
  have hns : ¬ k = k2 := fun h => hne h.symm
  induction d with
  | nil => simp [Dict.insert, Dict.get?, hns]
  | cons kv rest ih =>
    obtain ⟨k3, v3⟩ := kv
    by_cases h : k3 = k
    · subst h
      simp [Dict.insert, Dict.get?, hns]
    · by_cases h2 : k3 = k2
      · subst h2
        simp [Dict.insert, Dict.get?, h]
      · simp [Dict.insert, Dict.get?, h, h2, ih]

/-- Storing twice at the same key keeps only the second value. -/
theorem Dict.insert_insert_same {α : Type} (d : Dict α) (k : String) (v w : α) :
    Dict.insert (Dict.insert d k v) k w = Dict.insert d k w := by
  induction d with
  | nil => simp [Dict.insert]
  | cons kv rest ih =>
    obtain ⟨k2, v2⟩ := kv
    by_cases h : k2 = k <;> simp [Dict.insert, h, ih]

/-- Storing the value already present leaves the dict unchanged. -/
theorem Dict.insert_eq_self_of_get? {α : Type} (d : Dict α) (k : String) (v : α)
    (h : Dict.get? d k = some v) : Dict.insert d k v = d := by
  induction d with
  | nil => simp [Dict.get?] at h
  | cons kv rest ih =>
    obtain ⟨k2, v2⟩ := kv
    by_cases h2 : k2 = k
    · simp [Dict.get?, h2] at h
      simp [Dict.insert, h2, h]
    · simp [Dict.get?, h2] at h
      simp [Dict.insert, h2, ih h]

/-- Storing at an absent key appends the pair. -/
theorem Dict.insert_of_not_hasKey {α : Type} (d : Dict α) (k : String) (v : α)
    (h : Dict.hasKey d k = false) : Dict.insert d k v = d ++ [(k, v)] := by
  induction d with
  | nil => simp [Dict.insert]
  | cons kv rest ih =>
    obtain ⟨k2, v2⟩ := kv
    by_cases h2 : k2 = k
    · simp [Dict.hasKey, Dict.get?, h2] at h
    · simp [Dict.hasKey, Dict.get?, h2] at h
      simp [Dict.insert, h2, ih (by simp [Dict.hasKey, h])]

/-- Storing at a present key keeps the key list. -/
theorem Dict.keys_insert_of_hasKey {α : Type} (d : Dict α) (k : String) (v : α)
    (h : Dict.hasKey d k = true) : Dict.keys (Dict.insert d k v) = Dict.keys d := by
  induction d with
  | nil => simp [Dict.hasKey, Dict.get?] at h
  | cons kv rest ih =>
    obtain ⟨k2, v2⟩ := kv
    by_cases h2 : k2 = k
    · simp [Dict.insert, Dict.keys, h2]
    · simp [Dict.hasKey, Dict.get?, h2] at h
      simp [Dict.insert, Dict.keys, h2]
      exact ih (by simp [Dict.hasKey, h])

/-- Key absence in terms of the key list. -/
theorem Dict.hasKey_false_iff {α : Type} (d : Dict α) (k : String) :
    Dict.hasKey d k = false ↔ k ∉ Dict.keys d := by
  induction d with
  | nil => simp [Dict.hasKey, Dict.get?, Dict.keys]
  | cons kv rest ih =>
    obtain ⟨k2, v2⟩ := kv
    by_cases h2 : k2 = k
    · simp [Dict.hasKey, Dict.get?, Dict.keys, h2]
    · simp only [Dict.hasKey, Dict.get?, Dict.keys] at ih ⊢
      simp [h2, Ne.symm h2, ih]

/-- Storing preserves uniqueness of the keys. -/
theorem Dict.nodupKeys_insert {α : Type} (d : Dict α) (k : String) (v : α)
    (h : (Dict.keys d).Nodup) : (Dict.keys (Dict.insert d k v)).Nodup := by
  by_cases hk : Dict.hasKey d k = true
  · rw [Dict.keys_insert_of_hasKey d k v hk]
    exact h
  · rw [Dict.insert_of_not_hasKey d k v (by simpa using hk)]
    have hnm : k ∉ Dict.keys d := (Dict.hasKey_false_iff d k).mp (by simpa using hk)
    rw [Dict.keys_append]
    refine List.Nodup.append h (by simp [Dict.keys]) ?_
    intro x hx hx2
    simp [Dict.keys] at hx2
    subst hx2
    exact hnm hx

/-- `update` unfolds one pair at a time. -/
theorem Dict.update_cons {α : Type} (d : Dict α) (kv : String × α) (e : Dict α) :
    Dict.update d (kv :: e) = Dict.update (Dict.insert d kv.1 kv.2) e := rfl

/-- `update` with nothing to merge. -/
theorem Dict.update_nil_right {α : Type} (d : Dict α) : Dict.update d [] = d := rfl

/-- Keys absent from the merged-in dict are unaffected by `update`. -/
theorem Dict.get?_update_not_mem {α : Type} (e : Dict α) :
    ∀ (d : Dict α) (k : String), k ∉ Dict.keys e →
    Dict.get? (Dict.update d e) k = Dict.get? d k := by
  induction e with
  | nil => intro d k _; rfl
  | cons kv rest ih =>
    intro d k h
    rw [Dict.keys_cons] at h
    have h1 : k ≠ kv.1 := fun he => h (he ▸ List.mem_cons_self _ _)
    have h2 : k ∉ Dict.keys rest := fun hm => h (List.mem_cons_of_mem _ hm)
    rw [Dict.update_cons, ih (Dict.insert d kv.1 kv.2) k h2,
        Dict.get?_insert_ne d kv.1 k kv.2 h1]

/-- With unique keys in the merged-in dict, `update` stores each of its
pairs. -/
theorem Dict.get?_update_self_of_nodup {α : Type} (e : Dict α) :
    ∀ (d : Dict α) (k : String) (v : α), (Dict.keys e).Nodup → (k, v) ∈ e →
    Dict.get? (Dict.update d e) k = some v := by
  induction e with
  | nil => intro d k v _ hm; simp at hm
  | cons kv rest ih =>
    intro d k v hn hm
    obtain ⟨k2, v2⟩ := kv
    rw [Dict.keys_cons] at hn
    rcases List.mem_cons.mp hm with hm | hm
    · obtain ⟨hk, hv⟩ : k = k2 ∧ v = v2 := by simpa using hm
      subst hk
      subst hv
      rw [Dict.update_cons]
      have hk2 : k ∉ Dict.keys rest := (List.nodup_cons.mp hn).1
      rw [Dict.get?_update_not_mem rest (Dict.insert d k v) k hk2,
          Dict.get?_insert_self]
    · rw [Dict.update_cons]
      exact ih (Dict.insert d k2 v2) k v (List.nodup_cons.mp hn).2 hm

/-- `update` preserves uniqueness of the base dict\x27s keys. -/
theorem Dict.nodupKeys_update {α : Type} (e : Dict α) :
    ∀ d : Dict α, (Dict.keys d).Nodup → (Dict.keys (Dict.update d e)).Nodup := by
  induction e with
  | nil => intro d h; exact h
  | cons kv rest ih =>
    intro d h
    rw [Dict.update_cons]
    exact ih (Dict.insert d kv.1 kv.2) (Dict.nodupKeys_insert d kv.1 kv.2 h)

/-- Merging into a dict disjoint from the merged-in keys appends. -/
theorem Dict.update_append_of_disjoint {α : Type} (d : Dict α) :
    ∀ acc : Dict α, (Dict.keys d).Nodup →
    (∀ k ∈ Dict.keys d, Dict.hasKey acc k = false) →
    Dict.update acc d = acc ++ d := by
  induction d with
  | nil => intro acc _ _; simp [Dict.update]
  | cons kv rest ih =>
    intro acc hn hdisj
    obtain ⟨k2, v2⟩ := kv
    rw [Dict.keys_cons] at hn hdisj
    have hn2 : (Dict.keys rest).Nodup := (List.nodup_cons.mp hn).2
    have hk2rest : k2 ∉ Dict.keys rest := (List.nodup_cons.mp hn).1
    have hk2acc : Dict.hasKey acc k2 = false := hdisj k2 (List.mem_cons_self _ _)
    have hdisj2 : ∀ k ∈ Dict.keys rest, Dict.hasKey (acc ++ [(k2, v2)]) k = false := by
      intro k hk
      have h1 : k ∉ Dict.keys acc :=
        (Dict.hasKey_false_iff acc k).mp (hdisj k (List.mem_cons_of_mem _ hk))
      have h2 : ¬ k = k2 := fun he => hk2rest (he ▸ hk)
      rw [Dict.hasKey_false_iff, Dict.keys_append]
      intro hmem
      rcases List.mem_append.mp hmem with hmem | hmem
      · exact h1 hmem
      · simp [Dict.keys] at hmem
        exact h2 hmem
    rw [Dict.update_cons, Dict.insert_of_not_hasKey acc k2 v2 hk2acc,
        ih (acc ++ [(k2, v2)]) hn2 hdisj2, List.append_assoc]
    rfl

/-- Merging a unique-keyed dict into the empty dict is the identity. -/
theorem Dict.update_nil_eq_self {α : Type} (d : Dict α) (h : (Dict.keys d).Nodup) :
    Dict.update [] d = d := by
  rw [Dict.update_append_of_disjoint d [] h (fun k _ => rfl)]
  simp

/-- Merging pairs the dict already holds is the identity. -/
theorem Dict.update_eq_self_of_get? {α : Type} (e : Dict α) :
    ∀ d : Dict α, (∀ kv ∈ e, Dict.get? d kv.1 = some kv.2) → Dict.update d e = d := by
  induction e with
  | nil => intro d _; rfl
  | cons kv rest ih =>
    intro d h
    rw [Dict.update_cons, Dict.insert_eq_self_of_get? d kv.1 kv.2 (h kv (by simp))]
    exact ih d (fun kv2 hm => h kv2 (by simp [hm]))

/-- A check list that passes entirely yields no fallback status. -/
theorem runChecks_all_true (checks : List ((APIRequest → Bool) × Int))
    (req : APIRequest) (h : ∀ p ∈ checks, p.1 req = true) :
    runChecks checks req = none := by
  induction checks with
  | nil => rfl
  | cons p rest ih =>
    obtain ⟨c, fb⟩ := p
    simp only [runChecks]
    have hc1 : c req = true := h (c, fb) (by simp)
    rw [hc1]
    simp only [if_true]
    exact ih (fun p2 hm => h p2 (by simp [hm]))

/-- The first failing check determines the fallback status; everything
after it is irrelevant. -/
theorem runChecks_first_fail (pre post : List ((APIRequest → Bool) × Int))
    (c : APIRequest → Bool) (fb : Int) (req : APIRequest)
    (hpre : ∀ p ∈ pre, p.1 req = true) (hc : c req = false) :
    runChecks (pre ++ (c, fb) :: post) req = some fb := by
  induction pre with
  | nil => simp [runChecks, hc]
  | cons p rest ih =>
    obtain ⟨c2, fb2⟩ := p
    simp only [List.cons_append, runChecks]
    have hc1 : c2 req = true := hpre (c2, fb2) (by simp)
    rw [hc1]
    simp only [if_true]
    exact ih (fun p2 hm => hpre p2 (by simp [hm]))

/-- `APIResponse(i)` for an int status: empty body, default message
title-cased. -/
theorem mk_int_plain (i : Int) :
    mkAPIResponse (StatusArg.sint i) RespArg.rnone none
      = some ⟨i, [], strTitle (DEFAULT_MESSAGES i)⟩ := rfl

/-- `Node.run` on an accepted method with all request checks passing, no
rate-limit integration and no response checks returns the handler\x27s
normalized envelope. -/
theorem Node.run_success (n : Node) (req : APIRequest) (h : HandlerResult)
    (hm : n.methods.contains req.method = true)
    (hpass : ∀ p ∈ n.checksRequest, p.1 req = true)
    (hu : n.usedAUU = false)
    (hclb : n.clb req = RawResult.plain h)
    (hresp : n.checksResponse = []) :
    n.run req = normalizeHandler h := by
  unfold Node.run
  rw [hm, runChecks_all_true _ _ hpass, hu, hclb, hresp]
  simp only [Bool.true_eq_false, if_false, unpackResult]
  cases hn : normalizeHandler h with
  | none => simp
  | some r => simp [applyResponseChecks, Dict.update]

/-- A fully matched path hands the request to the matched node\x27s
`run`. -/
theorem find_node_run (path : List String) :
    ∀ (n node : Node) (req : APIRequest), findPath n path = some node →
    n.find_node path req = node.run req := by
  induction path with
  | nil =>
    intro n node req h
    simp [findPath] at h
  | cons seg rest ih =>
    intro n node req h
    simp only [findPath] at h
    simp only [Node.find_node]
    cases hg : Dict.get? n.children seg with
    | none => rw [hg] at h; simp at h
    | some child =>
      rw [hg] at h
      cases rest with
      | nil =>
        simp at h
        rw [h]
      | cons s2 r2 => exact ih child node req h

/-- A walk that hits a missing child produces the 404 envelope. -/
theorem find_node_404 (path : List String) :
    ∀ (n : Node) (req : APIRequest), walkMisses n path = true →
    n.find_node path req = some ⟨404, [], "Not Found"⟩ := by
  induction path with
  | nil =>
    intro n req h
    simp [walkMisses] at h
  | cons seg rest ih =>
    intro n req h
    simp only [walkMisses] at h
    simp only [Node.find_node]
    cases hg : Dict.get? n.children seg with
    | none =>
      rw [mk_int_plain 404]
      rfl
    | some child =>
      rw [hg] at h
      cases rest with
      | nil => simp at h
      | cons s2 r2 => exact ih child req h

/-- A matching tag in the version loop selects the tag and strips it. -/
theorem resolveLoop_found (tags : List String) (dflt path first : String)
    (h : first ∈ tags) :
    resolveLoop tags dflt path first = (first, strDrop path (first.length + 1)) := by
  induction tags with
  | nil => simp at h
  | cons v rest ih =>
    by_cases hv : v = first
    · subst hv
      simp [resolveLoop]
    · simp only [resolveLoop]
      rw [if_neg (by simp [hv])]
      exact ih (by rcases List.mem_cons.mp h with h2 | h2
                   · exact absurd h2.symm hv
                   · exact h2)

/-- With no matching tag the version loop keeps the default and the
path. -/
theorem resolveLoop_not_found (tags : List String) (dflt path first : String)
    (h : ∀ v ∈ tags, v ≠ first) :
    resolveLoop tags dflt path first = (dflt, path) := by
  induction tags with
  | nil => rfl
  | cons v rest ih =>
    simp only [resolveLoop]
    rw [if_neg (by simp [h v (by simp)])]
    exact ih (fun v2 hm => h v2 (by simp [hm]))

/-- Replacing children then reading them back. -/
theorem Node.children_withChildren (n : Node) (c : Dict Node) :
    (n.withChildren c).children = c := by
  cases n
  rfl

/-- Replacing children by themselves is the identity. -/
theorem Node.withChildren_children (n : Node) :
    n.withChildren n.children = n := by
  cases n
  rfl

/-- Only the last replacement of children survives. -/
theorem Node.withChildren_withChildren (n : Node) (c d : Dict Node) :
    (n.withChildren c).withChildren d = n.withChildren d := by
  cases n
  rfl

/-- The other fields of a node survive a children replacement. -/
theorem Node.methods_withChildren (n : Node) (c : Dict Node) :
    (n.withChildren c).methods = n.methods := by
  cases n
  rfl

/-- The keys of the child pairs a callback registers are its child
names. -/
theorem keys_childKVsActs (acts : List RegAction) (u : Bool) :
    Dict.keys (childKVsActs acts u)
      = acts.filterMap (fun a =>
          match a with
          | RegAction.addChild nm _ _ _ => some nm
          | _ => none) := by
  induction acts with
  | nil => rfl
  | cons a rest ih =>
    cases a with
    | addChild nm ms ign clb => simp [childKVsActs, Dict.keys] at ih ⊢; exact ih
    | addGlobalRequestCheck fb c => simpa [childKVsActs] using ih
    | addGlobalResponseCheck c => simpa [childKVsActs] using ih

/-- The keys of `childKVs` are the callback\x27s child names. -/
theorem keys_childKVs (cb : Callback) (u : Bool) :
    Dict.keys (childKVs cb u) = childNames cb :=
  keys_childKVsActs cb.actions u

/-- Unfolding of the action fold. -/
theorem execActions_cons (tag : String) (st : RegState) (a : RegAction)
    (rest : List RegAction) :
    RegState.execActions tag st (a :: rest)
      = RegState.execActions tag (RegState.execAction tag st a) rest := rfl

/-- Effect of a callback body on the version table: starting from a
table holding `root` at `tag`, the body merges its child pairs into
`root`\x27s children; `usedAUU` never changes. -/
theorem execActions_versions (tag : String) (acts : List RegAction) :
    ∀ (st : RegState) (V : Dict Node) (root : Node),
    st.versions = Dict.insert V tag root →
    (RegState.execActions tag st acts).versions
      = Dict.insert V tag
          (root.withChildren (Dict.update root.children (childKVsActs acts st.usedAUU)))
    ∧ (RegState.execActions tag st acts).usedAUU = st.usedAUU := by
  induction acts with
  | nil =>
    intro st V root h
    refine ⟨?_, rfl⟩
    rw [show RegState.execActions tag st [] = st from rfl, h,
        show childKVsActs [] st.usedAUU = [] from rfl,
        Dict.update_nil_right, Node.withChildren_children]
  | cons a rest ih =>
    intro st V root h
    cases a with
    | addChild nm ms ign clb =>
      rw [execActions_cons]
      have hget : Dict.get? st.versions tag = some root := by
        rw [h, Dict.get?_insert_self]
      have hstep : (RegState.execAction tag st (RegAction.addChild nm ms ign clb))
          = { st with versions :=
                (Dict.insert st.versions tag
                  (root.withChildren
                    (Dict.insert root.children nm (newNode ms ign st.usedAUU clb)))) } := by
        simp [RegState.execAction, hget]
      rw [hstep]
      have h2 : ({ st with versions :=
            (Dict.insert st.versions tag
              (root.withChildren
                (Dict.insert root.children nm (newNode ms ign st.usedAUU clb)))) } :
          RegState).versions
          = Dict.insert V tag
              (root.withChildren (Dict.insert root.children nm (newNode ms ign st.usedAUU clb))) := by
        rw [show ({ st with versions :=
              (Dict.insert st.versions tag
                (root.withChildren
                  (Dict.insert root.children nm (newNode ms ign st.usedAUU clb)))) } :
            RegState).versions
            = Dict.insert st.versions tag
                (root.withChildren
                  (Dict.insert root.children nm (newNode ms ign st.usedAUU clb))) from rfl,
            h, Dict.insert_insert_same]
      obtain ⟨ih1, ih2⟩ := ih _ V
        (root.withChildren (Dict.insert root.children nm (newNode ms ign st.usedAUU clb))) h2
      refine ⟨?_, ih2⟩
      rw [ih1, Node.children_withChildren, Node.withChildren_withChildren,
          show childKVsActs (RegAction.addChild nm ms ign clb :: rest) st.usedAUU
            = (nm, newNode ms ign st.usedAUU clb) :: childKVsActs rest st.usedAUU from rfl,
          Dict.update_cons]
    | addGlobalRequestCheck fb c =>
      rw [execActions_cons]
      exact ih _ V root h
    | addGlobalResponseCheck c =>
      rw [execActions_cons]
      exact ih _ V root h

/-- The existing children of a freshly stored version entry. -/
theorem oldChildrenOf_insert_self (V : Dict Node) (tag : String) (n : Node) :
    oldChildrenOf (Dict.insert V tag n) tag = n.children := by
  unfold oldChildrenOf
  rw [Dict.get?_insert_self]

/-- Closed form of one `add_version` registration pass: the version
entry becomes a root bound to the callback whose children are the
previous children updated with the callback\x27s child registrations. -/
theorem addVersionOne_versions (st : RegState) (tag : String) (cb : Callback) :
    (addVersionOne st tag cb).versions
      = Dict.insert st.versions tag
          ((newNode HTTP_METHODS false st.usedAUU cb.fn).withChildren
            (Dict.update (Dict.update [] (oldChildrenOf st.versions tag))
              (childKVs cb st.usedAUU)))
    ∧ (addVersionOne st tag cb).usedAUU = st.usedAUU := by
  obtain ⟨h1, h2⟩ := execActions_versions tag cb.actions
    { st with
      currentVersion := some tag
      checksRequestGlobal :=
        (Dict.insert st.checksRequestGlobal tag (Dict.getD st.checksRequestGlobal tag []))
      checksResponseGlobal :=
        (Dict.insert st.checksResponseGlobal tag (Dict.getD st.checksResponseGlobal tag []))
      versions :=
        (Dict.insert st.versions tag
          ((newNode HTTP_METHODS false st.usedAUU cb.fn).withChildren
            (Dict.update [] (oldChildrenOf st.versions tag)))) }
    st.versions
    ((newNode HTTP_METHODS false st.usedAUU cb.fn).withChildren
      (Dict.update [] (oldChildrenOf st.versions tag)))
    rfl
  constructor
  · rw [show (addVersionOne st tag cb).versions
        = (RegState.execActions tag
            { st with
              currentVersion := some tag
              checksRequestGlobal :=
                (Dict.insert st.checksRequestGlobal tag (Dict.getD st.checksRequestGlobal tag []))
              checksResponseGlobal :=
                (Dict.insert st.checksResponseGlobal tag (Dict.getD st.checksResponseGlobal tag []))
              versions :=
                (Dict.insert st.versions tag
                  ((newNode HTTP_METHODS false st.usedAUU cb.fn).withChildren
                    (Dict.update [] (oldChildrenOf st.versions tag)))) }
            cb.actions).versions from rfl,
        h1, Node.children_withChildren, Node.withChildren_withChildren]
    rfl
  · rw [show (addVersionOne st tag cb).usedAUU
        = (RegState.execActions tag
            { st with
              currentVersion := some tag
              checksRequestGlobal :=
                (Dict.insert st.checksRequestGlobal tag (Dict.getD st.checksRequestGlobal tag []))
              checksResponseGlobal :=
                (Dict.insert st.checksResponseGlobal tag (Dict.getD st.checksResponseGlobal tag []))
              versions :=
                (Dict.insert st.versions tag
                  ((newNode HTTP_METHODS false st.usedAUU cb.fn).withChildren
                    (Dict.update [] (oldChildrenOf st.versions tag)))) }
            cb.actions).usedAUU from rfl,
        h2]

/-- Registering the same callback a second time under the same tag does
not change the version table (the heart of the fallback-idempotence
property). -/
theorem addVersionOne_idem (st : RegState) (tag : String) (cb : Callback)
    (hnodup : (childNames cb).Nodup) :
    (addVersionOne (addVersionOne st tag cb) tag cb).versions
      = (addVersionOne st tag cb).versions := by
  obtain ⟨hA1, hA2⟩ := addVersionOne_versions st tag cb
  obtain ⟨hB1, _⟩ := addVersionOne_versions (addVersionOne st tag cb) tag cb
  rw [hB1, hA1, hA2, oldChildrenOf_insert_self, Node.children_withChildren,
      Dict.insert_insert_same]
  have hnodupC1 :
      (Dict.keys (Dict.update (Dict.update [] (oldChildrenOf st.versions tag))
        (childKVs cb st.usedAUU))).Nodup :=
    Dict.nodupKeys_update (childKVs cb st.usedAUU)
      (Dict.update [] (oldChildrenOf st.versions tag))
      (Dict.nodupKeys_update (oldChildrenOf st.versions tag) [] (by simp [Dict.keys]))
  rw [Dict.update_nil_eq_self _ hnodupC1]
  have hsame : Dict.update
      (Dict.update (Dict.update [] (oldChildrenOf st.versions tag))
        (childKVs cb st.usedAUU))
      (childKVs cb st.usedAUU)
      = Dict.update (Dict.update [] (oldChildrenOf st.versions tag))
          (childKVs cb st.usedAUU) := by
    refine Dict.update_eq_self_of_get? (childKVs cb st.usedAUU) _ (fun kv hm => ?_)
    exact Dict.get?_update_self_of_nodup (childKVs cb st.usedAUU)
      (Dict.update [] (oldChildrenOf st.versions tag)) kv.1 kv.2
      (by rw [keys_childKVs]; exact hnodup) (by simpa using hm)
  rw [hsame]

/-- C1: dispatch through the routing trie (`find_node` then `run`): a
registered path whose node accepts the request method, with all request
checks passing (and no response checks or rate-limit integration
rewriting the result), returns the bound handler\x27s normalized
envelope; a path whose first unmatched segment is not a child of the
current node returns the 404 envelope with message "Not Found"; a fully
matched node whose accepted-method set does not contain the request\x27s
method returns the 405 envelope. -/
theorem C1_trie_dispatch (n : Node) (path : List String) (req : APIRequest) :
    (∀ (node : Node) (h : HandlerResult), findPath n path = some node →
      node.usedAUU = false →
      node.methods.contains req.method = true →
      (∀ p ∈ node.checksRequest, p.1 req = true) →
      node.checksResponse = [] →
      node.clb req = RawResult.plain h →
      n.find_node path req = normalizeHandler h)
    ∧ (walkMisses n path = true →
      n.find_node path req = some ⟨404, [], "Not Found"⟩)
    ∧ (∀ node : Node, findPath n path = some node →
      node.methods.contains req.method = false →
      n.find_node path req = some ⟨405, [], "Method Not Allowed"⟩) := by
  refine ⟨?_, ?_, ?_⟩
  · intro node h hfind hu hm hpass hresp hclb
    rw [find_node_run path n node req hfind]
    exact Node.run_success node req h hm hpass hu hclb hresp
  · intro hmiss
    exact find_node_404 path n req hmiss
  · intro node hfind hm
    rw [find_node_run path n node req hfind]
    unfold Node.run
    rw [hm]
    simp only [eq_self_iff_true, if_true]
    decide

/-- Closed instance of C1: the three dispatch outcomes on a concrete
two-node tree. -/
theorem C1_trie_dispatch_witness :
    wRoot.find_node ["users"] wReq
      = normalizeHandler (HandlerResult.tupDict 201 [("x", Val.int 1)])
    ∧ wRoot.find_node ["nope"] wReq = some ⟨404, [], "Not Found"⟩
    ∧ wRoot.find_node ["users"] wReqPost = some ⟨405, [], "Method Not Allowed"⟩ := by
  refine ⟨?_, ?_, ?_⟩
  · exact (C1_trie_dispatch wRoot ["users"] wReq).1 wLeaf
      (HandlerResult.tupDict 201 [("x", Val.int 1)])
      rfl rfl (by decide) (by simp [wLeaf, Node.checksRequest]) rfl rfl
  · exact (C1_trie_dispatch wRoot ["nope"] wReq).2.1 (by decide)
  · exact (C1_trie_dispatch wRoot ["users"] wReqPost).2.2 wLeaf rfl (by decide)

/-- C2: envelope normalization of the three constructor call shapes:
a bare 200 yields an empty body and the canonical phrase title-cased to
"Ok"; `(201, dict)` keeps the dict as body with message "Created";
`(201, "Created!")` yields an empty body and the given message; the
shapes are told apart by the runtime type of the second value. -/
theorem C2_envelope_normalization :
    mkAPIResponse (StatusArg.sint 200) RespArg.rnone none = some ⟨200, [], "Ok"⟩
    ∧ mkAPIResponse (StatusArg.sint 201) (RespArg.rdict [("x", Val.int 1)]) none
        = some ⟨201, [("x", Val.int 1)], "Created"⟩
    ∧ mkAPIResponse (StatusArg.sint 201) (RespArg.rstr "Created!") none
        = some ⟨201, [], "Created!"⟩ := by
  refine ⟨by decide, by decide, by decide⟩

/-- C3: version resolution: a request path starting with a registered
tag selects that tag and strips the segment; a first segment matching
no registered tag keeps the configured default tag and the path
unchanged; matching is exact string equality on the first segment. -/
theorem C3_version_resolution (versions : Dict Node) (dflt : String) :
    ("v2" ∈ Dict.keys versions →
      resolveVersion versions dflt (strDrop "/v2/users" 1) = ("v2", "users"))
    ∧ ((∀ v ∈ Dict.keys versions, v ≠ "users") →
      resolveVersion versions "v1" (strDrop "/users" 1) = ("v1", "users")) := by
  constructor
  · intro h
    rw [show strDrop "/v2/users" 1 = "v2/users" from rfl,
        show resolveVersion versions dflt "v2/users"
          = resolveLoop (Dict.keys versions) dflt "v2/users" "v2" from rfl,
        resolveLoop_found (Dict.keys versions) dflt "v2/users" "v2" h]
    rfl
  · intro h
    rw [show strDrop "/users" 1 = "users" from rfl,
        show resolveVersion versions "v1" "users"
          = resolveLoop (Dict.keys versions) "v1" "users" "users" from rfl,
        resolveLoop_not_found (Dict.keys versions) "v1" "users" "users" h]

/-- Closed instance of C3 on a two-version registry. -/
theorem C3_version_resolution_witness :
    resolveVersion [("v1", trivNode), ("v2", trivNode)] "v1" (strDrop "/v2/users" 1)
      = ("v2", "users")
    ∧ resolveVersion [("v1", trivNode), ("v2", trivNode)] "v1" (strDrop "/users" 1)
      = ("v1", "users") := by
  constructor
  · exact (C3_version_resolution [("v1", trivNode), ("v2", trivNode)] "v1").1 (by decide)
  · exact (C3_version_resolution [("v1", trivNode), ("v2", trivNode)] "v1").2 (by decide)

/-- C4: request-check short-circuit in `Node.run`: when the check at
position k fails, the checks after it, the handler and the response
checks are irrelevant to the result (they are quantified over and do not
appear in it), and the returned envelope is built from that check\x27s
fallback status. -/
theorem C4_request_check_short_circuit (n : Node) (req : APIRequest)
    (pre post : List ((APIRequest → Bool) × Int)) (c : APIRequest → Bool) (fb : Int)
    (hchecks : n.checksRequest = pre ++ (c, fb) :: post)
    (hm : n.methods.contains req.method = true)
    (hpre : ∀ p ∈ pre, p.1 req = true)
    (hc : c req = false) :
    n.run req = some ⟨fb, [], strTitle (DEFAULT_MESSAGES fb)⟩ := by
  unfold Node.run
  rw [hm, hchecks, runChecks_first_fail pre post c fb req hpre hc]
  simp only [Bool.true_eq_false, if_false]
  exact mk_int_plain fb

/-- Closed instance of C4: the second (failing) check of a two-check
node yields its fallback status 403. -/
theorem C4_request_check_short_circuit_witness :
    wCheckNode.run wReq = some ⟨403, [], strTitle (DEFAULT_MESSAGES 403)⟩ :=
  C4_request_check_short_circuit wCheckNode wReq
    [(fun _ => true, 400)] [] (fun _ => false) 403
    rfl (by decide) (by simp) rfl

/-- C5: re-registering a version with the same callback as fallback
before the primary registration yields the same version table as the
primary registration alone; and a later `add_version` pass on an
already-registered tag merges its children additively into the existing
entry (old children preserved, last writer wins per name) rather than
replacing it. -/
theorem C5_fallback_idempotent (st : RegState) (tag : String) (cb : Callback)
    (hnodup : (childNames cb).Nodup) :
    (addVersion st tag [cb] cb).versions = (addVersion st tag [] cb).versions
    ∧ (∀ oldRoot : Node, Dict.get? st.versions tag = some oldRoot →
        (Dict.keys oldRoot.children).Nodup →
        ∃ newRoot : Node,
          Dict.get? (addVersionOne st tag cb).versions tag = some newRoot
          ∧ (∀ nm : String, nm ∉ childNames cb →
              Dict.get? newRoot.children nm = Dict.get? oldRoot.children nm)
          ∧ (∀ kv ∈ childKVs cb st.usedAUU,
              Dict.get? newRoot.children kv.1 = some kv.2)) := by
  constructor
  · exact addVersionOne_idem st tag cb hnodup
  · intro oldRoot hold hnodupOld
    obtain ⟨h1, _⟩ := addVersionOne_versions st tag cb
    refine ⟨(newNode HTTP_METHODS false st.usedAUU cb.fn).withChildren
        (Dict.update (Dict.update [] (oldChildrenOf st.versions tag))
          (childKVs cb st.usedAUU)),
      by rw [h1, Dict.get?_insert_self], ?_, ?_⟩
    · intro nm hnm
      rw [Node.children_withChildren]
      have holdc : oldChildrenOf st.versions tag = oldRoot.children := by
        unfold oldChildrenOf
        rw [hold]
      rw [holdc, Dict.update_nil_eq_self oldRoot.children hnodupOld]
      exact Dict.get?_update_not_mem (childKVs cb st.usedAUU) oldRoot.children nm
        (by rw [keys_childKVs]; exact hnm)
    · intro kv hm
      rw [Node.children_withChildren]
      exact Dict.get?_update_self_of_nodup (childKVs cb st.usedAUU)
        (Dict.update [] (oldChildrenOf st.versions tag)) kv.1 kv.2
        (by rw [keys_childKVs]; exact hnodup) (by simpa using hm)

/-- Closed instance of C5 on a concrete state with an existing child `a`
and a callback registering children `a` and `b`. -/
theorem C5_fallback_idempotent_witness :
    (addVersion wSt "v1" [wCb] wCb).versions = (addVersion wSt "v1" [] wCb).versions
    ∧ (∃ newRoot : Node,
        Dict.get? (addVersionOne wSt "v1" wCb).versions "v1" = some newRoot
        ∧ (∀ nm : String, nm ∉ childNames wCb →
            Dict.get? newRoot.children nm = Dict.get? wOldRoot.children nm)
        ∧ (∀ kv ∈ childKVs wCb wSt.usedAUU,
            Dict.get? newRoot.children kv.1 = some kv.2)) := by
  have h := C5_fallback_idempotent wSt "v1" wCb (by decide)
  exact ⟨h.1, h.2 wOldRoot rfl (by decide)⟩

/-- C6 as stated is false: with no version registered at all, `run_api`
does not raise even though the configured default tag has no
corresponding registered version (the guard `if self._versions and ...`
skips the check on an empty registry). -/
theorem C6_counterexample :
    ¬ (∀ (versions : Dict Node) (d : String), Dict.hasKey versions d = false →
        ∃ e : String, run_api versions (some d) = Except.error e) := by
  intro hall
  obtain ⟨e, he⟩ := hall [] "v1" rfl
  rw [show run_api [] (some "v1") = Except.ok () from rfl] at he
  exact Except.noConfusion he

/-- C6 (amended): when at least one version is registered and the
configured default tag is not among them, `run_api` raises the fatal
configuration error before serving starts. -/
theorem C6_fatal_default_version (versions : Dict Node) (d : String)
    (hne : versions.isEmpty = false)
    (hmiss : Dict.hasKey versions d = false) :
    run_api versions (some d)
      = Except.error
          ("Can\x27t have \x27" ++ d ++
           "\x27 as default version, because this version is not set!") := by
  unfold run_api
  rw [hne]
  simp [hmiss]

/-- Closed instance of the amended C6: default `v1` with only `v2`
registered is a startup error. -/
theorem C6_fatal_default_version_witness :
    run_api [("v2", trivNode)] (some "v1")
      = Except.error
          ("Can\x27t have \x27" ++ "v1" ++
           "\x27 as default version, because this version is not set!") :=
  C6_fatal_default_version [("v2", trivNode)] "v1" rfl rfl

/-- C7: rate-limit integration in `Node.run`: when the handler returns
`((allowed, metadata), result)` and `allowed` is false, the envelope is
forced to status 429 regardless of the handler result; in both the
allowed and the denied case the metadata mapping is merged into the
envelope\x27s body. -/
theorem C7_ratelimit_integration (n : Node) (req : APIRequest)
    (hu : n.usedAUU = true)
    (hm : n.methods.contains req.method = true)
    (hpass : ∀ p ∈ n.checksRequest, p.1 req = true)
    (hresp : n.checksResponse = []) :
    (∀ (meta : Dict Val) (h : HandlerResult),
      n.clb req = RawResult.auu (false, meta) h →
      n.run req = some ⟨429, Dict.update [] meta, "Too Many Requests"⟩)
    ∧ (∀ (meta : Dict Val) (h : HandlerResult) (r : APIResponse),
      n.clb req = RawResult.auu (true, meta) h →
      normalizeHandler h = some r →
      n.run req = some { r with response := Dict.update r.response meta }) := by
  have h429 : normalizeHandler (HandlerResult.int 429)
      = some ⟨429, [], "Too Many Requests"⟩ := by decide
  constructor
  · intro meta h hclb
    unfold Node.run
    rw [hm, runChecks_all_true _ _ hpass, hu, hclb, hresp]
    simp [unpackResult, h429, applyResponseChecks]
  · intro meta h r hclb hnorm
    unfold Node.run
    rw [hm, runChecks_all_true _ _ hpass, hu, hclb, hresp]
    simp [unpackResult, hnorm, applyResponseChecks]

/-- Closed instance of C7: a denied request is forced to 429 with the
metadata as body; an allowed request keeps the handler envelope with the
metadata merged in. -/
theorem C7_ratelimit_integration_witness :
    wAUUDeny.run wReq = some ⟨429, [("limit", Val.int 10)], "Too Many Requests"⟩
    ∧ wAUUAllow.run wReq = some ⟨201, [("limit", Val.int 10)], "Created!"⟩ := by
  constructor
  · exact (C7_ratelimit_integration wAUUDeny wReq rfl (by decide)
      (fun p hp => absurd hp (List.not_mem_nil p)) rfl).1
      [("limit", Val.int 10)] (HandlerResult.int 200) rfl
  · exact (C7_ratelimit_integration wAUUAllow wReq rfl (by decide)
      (fun p hp => absurd hp (List.not_mem_nil p)) rfl).2
      [("limit", Val.int 10)] (HandlerResult.tupMsg 201 "Created!")
      ⟨201, [], "Created!"⟩ rfl (by decide)

/-- C8: a failing global request check of the resolved version makes the
dispatcher respond with that check\x27s fallback status and a body that
is exactly the canonical phrase under the key `message`; the later
global checks, the routing tree, the handlers and the response checks
(all quantified inside `api`) do not appear in the result. -/
theorem C8_global_precheck (api : APIModel) (method ip reqPath : String)
    (headers : Dict String)
    (pre post : List ((APIRequest → Bool) × Int)) (c : APIRequest → Bool) (fb : Int)
    (hchecks : Dict.get? api.checksRequestGlobal
        (resolveVersion api.versions api.versionDefault (strDrop reqPath 1)).1
        = some (pre ++ (c, fb) :: post))
    (hpre : ∀ p ∈ pre, p.1 (mkRequest api method headers ip reqPath) = true)
    (hc : c (mkRequest api method headers ip reqPath) = false) :
    application api method headers ip reqPath
      = some ⟨fb, [("message", Val.str (DEFAULT_MESSAGES fb))], "application/json"⟩ := by
  simp only [application]
  rw [hchecks]
  dsimp only
  rw [runChecks_first_fail pre post c fb (mkRequest api method headers ip reqPath) hpre hc]

/-- Closed instance of C8: a failing global check with fallback 401 on a
concrete API. -/
theorem C8_global_precheck_witness :
    application wAPI "GET" [] "127.0.0.1" "/v1/users"
      = some ⟨401, [("message", Val.str (DEFAULT_MESSAGES 401))], "application/json"⟩ :=
  C8_global_precheck wAPI "GET" "127.0.0.1" "/v1/users" [] [] []
    (fun _ => false) 401 rfl (fun p hp => absurd hp (List.not_mem_nil p)) rfl

/-- C9: a dict as the only positional argument of `APIResponse` becomes
the body of a 200 envelope, so a handler returning a bare mapping (a
fourth shape beyond the three documented ones) produces a 200 envelope
through `Node.run`. -/
theorem C9_bare_dict_shape (d : Dict Val) (n : Node) (req : APIRequest)
    (hmsg : Dict.get? d "message" = none) :
    mkAPIResponse (StatusArg.sdict d) RespArg.rnone none = some ⟨200, d, "Ok"⟩
    ∧ (n.usedAUU = false →
      n.methods.contains req.method = true →
      (∀ p ∈ n.checksRequest, p.1 req = true) →
      n.checksResponse = [] →
      n.clb req = RawResult.plain (HandlerResult.dict d) →
      n.run req = some ⟨200, d, "Ok"⟩) := by
  have hpart1 : mkAPIResponse (StatusArg.sdict d) RespArg.rnone none
      = some ⟨200, d, "Ok"⟩ := by
    show finishResponse 200 d none = some ⟨200, d, "Ok"⟩
    unfold finishResponse
    rw [hmsg]
    dsimp only
    rw [show strTitle (DEFAULT_MESSAGES 200) = "Ok" from by decide]
  refine ⟨hpart1, ?_⟩
  intro hu hm hpass hresp hclb
  rw [Node.run_success n req (HandlerResult.dict d) hm hpass hu hclb hresp]
  exact hpart1

/-- Closed instance of C9 on a concrete dict and node. -/
theorem C9_bare_dict_shape_witness :
    mkAPIResponse (StatusArg.sdict [("a", Val.int 1)]) RespArg.rnone none
      = some ⟨200, [("a", Val.int 1)], "Ok"⟩
    ∧ wDictNode.run wReq = some ⟨200, [("a", Val.int 1)], "Ok"⟩ := by
  have h := C9_bare_dict_shape [("a", Val.int 1)] wDictNode wReq rfl
  exact ⟨h.1, h.2 rfl (by decide) (fun p hp => absurd hp (List.not_mem_nil p)) rfl rfl⟩

/-- C10: a status code absent from the message table does not make
construction fail: the table lookup returns the empty string and the
envelope\x27s message is empty. -/
theorem C10_missing_status_message (s : Int)
    (habsent : DEFAULT_MESSAGES s = "") :
    mkAPIResponse (StatusArg.sint s) RespArg.rnone none = some ⟨s, [], ""⟩ := by
  rw [mk_int_plain s, habsent]
  rfl

/-- Closed instance of C10 at status 451, which the table does not
contain (it lists 452 instead). -/
theorem C10_missing_status_message_witness :
    DEFAULT_MESSAGES 451 = ""
    ∧ mkAPIResponse (StatusArg.sint 451) RespArg.rnone none = some ⟨451, [], ""⟩ :=
  ⟨by decide, C10_missing_status_message 451 (by decide)⟩

end NAA
